import Mathlib

/-
Verification of the resilience and coordination layer of the SistemadeReservas
repository: the inventory store (services/inventario), the shared resilience
patterns (shared/resilience-patterns.js: retryWithBackoff and Bulkhead), the
stale-read inventory cache and the reservation saga (services/reservas).

Each definition is a shallow embedding of the corresponding JavaScript source.
Quantities are modelled as Int where the source performs unchecked arithmetic
on request-supplied numbers, and as Nat for counters the source only ever
increments from zero.
-/

namespace SistemaReservas

/-! ## Inventory store (services/inventario/index.js)

The store keeps one record per event; the in-memory branch and the Redis Lua
script implement the same guard-and-decrement, so a single embedding covers
both. An event record carries the fields the routes touch. -/

structure Evento where
  nombre : String
  asientosDisponibles : Int
  precio : Int
deriving Repr, DecidableEq

/-- Outcome of POST /inventario/:eventoId/reservar. -/
inductive ReservarResult
  | invalidQuantity
  | eventNotFound
  | insufficientSeats (disponibles : Int)
  | ok (restantes : Int)
deriving Repr, DecidableEq

/-- Outcome of POST /inventario/:eventoId/liberar. -/
inductive LiberarResult
  | invalidQuantity
  | eventNotFound
  | ok (disponibles : Int)
deriving Repr, DecidableEq

/-- POST /inventario/:eventoId/reservar: rejects a non-positive quantity with
400, a missing event with 404, insufficient seats with 409, and otherwise
decrements asientosDisponibles by the requested quantity. -/
def reservarHandler (cantidad : Int) (ev : Option Evento) : ReservarResult × Option Evento :=
  if cantidad ≤ 0 then (ReservarResult.invalidQuantity, ev)
  else
    match ev with
    | none => (ReservarResult.eventNotFound, none)
    | some e =>
      if e.asientosDisponibles < cantidad then
        (ReservarResult.insufficientSeats e.asientosDisponibles, some e)
      else
        (ReservarResult.ok (e.asientosDisponibles - cantidad),
          some { e with asientosDisponibles := e.asientosDisponibles - cantidad })

/-- POST /inventario/:eventoId/liberar: rejects a non-positive quantity with
400 and a missing event with 404; otherwise it increments
asientosDisponibles unconditionally (no upper bound is checked). -/
def liberarHandler (cantidad : Int) (ev : Option Evento) : LiberarResult × Option Evento :=
  if cantidad ≤ 0 then (LiberarResult.invalidQuantity, ev)
  else
    match ev with
    | none => (LiberarResult.eventNotFound, none)
    | some e =>
      (LiberarResult.ok (e.asientosDisponibles + cantidad),
        some { e with asientosDisponibles := e.asientosDisponibles + cantidad })

/-- One request against the availability store. -/
inductive InvOp
  | reservar (cantidad : Int)
  | liberar (cantidad : Int)
deriving Repr, DecidableEq

def applyInvOp (ev : Option Evento) : InvOp → Option Evento
  | InvOp.reservar n => (reservarHandler n ev).2
  | InvOp.liberar n => (liberarHandler n ev).2

def runInvOps (ev : Option Evento) (ops : List InvOp) : Option Evento :=
  ops.foldl applyInvOp ev

/-- Available units of the store state (0 when the event does not exist). -/
def availTotal : Option Evento → Int
  | none => 0
  | some e => e.asientosDisponibles

/-- Units taken by one operation when it succeeds (0 otherwise). -/
def reservedOf (ev : Option Evento) : InvOp → Int
  | InvOp.reservar n =>
    match (reservarHandler n ev).1 with
    | ReservarResult.ok _ => n
    | _ => 0
  | InvOp.liberar _ => 0

/-- Units added back by one operation when it succeeds (0 otherwise). -/
def releasedOf (ev : Option Evento) : InvOp → Int
  | InvOp.reservar _ => 0
  | InvOp.liberar n =>
    match (liberarHandler n ev).1 with
    | LiberarResult.ok _ => n
    | _ => 0

/-- Cumulative successfully reserved units along a trace. -/
def reservedUnits : Option Evento → List InvOp → Int
  | _, [] => 0
  | ev, op :: ops => reservedOf ev op + reservedUnits (applyInvOp ev op) ops

/-- Cumulative successfully released units along a trace. -/
def releasedUnits : Option Evento → List InvOp → Int
  | _, [] => 0
  | ev, op :: ops => releasedOf ev op + releasedUnits (applyInvOp ev op) ops

/-- The fourth seeded event: Stand-up Comedy starts with a single seat, so its
initial total is 1. -/
def evento4 : Evento := { nombre := "Comedy", asientosDisponibles := 1, precio := 25 }

theorem applyInvOp_avail (ev : Option Evento) (op : InvOp) :
    availTotal (applyInvOp ev op) = availTotal ev - reservedOf ev op + releasedOf ev op := by
  cases op with
  | reservar n =>
    simp only [applyInvOp, reservedOf, releasedOf, reservarHandler]
    split
    · simp [availTotal]
    · cases ev with
      | none => simp [availTotal]
      | some e =>
        simp only []
        split
        · simp [availTotal]
        · simp [availTotal]
  | liberar n =>
    simp only [applyInvOp, reservedOf, releasedOf, liberarHandler]
    split
    · simp [availTotal]
    · cases ev with
      | none => simp [availTotal]
      | some e => simp [availTotal]

theorem applyInvOp_nonneg (ev : Option Evento) (op : InvOp)
    (h : 0 ≤ availTotal ev) : 0 ≤ availTotal (applyInvOp ev op) := by
  cases op with
  | reservar n =>
    simp only [applyInvOp, reservarHandler]
    split
    · exact h
    · cases ev with
      | none => simp [availTotal]
      | some e =>
        simp only []
        split
        · exact h
        · simp only [availTotal]
          rename_i hq hlt
          simp only [availTotal] at h
          omega
  | liberar n =>
    simp only [applyInvOp, liberarHandler]
    split
    · exact h
    · cases ev with
      | none => simp [availTotal]
      | some e =>
        simp only [availTotal]
        rename_i hq
        simp only [availTotal] at h
        omega

theorem runInvOps_avail (ops : List InvOp) : ∀ ev : Option Evento,
    availTotal (runInvOps ev ops) =
      availTotal ev - reservedUnits ev ops + releasedUnits ev ops := by
  induction ops with
  | nil => intro ev; simp [runInvOps, reservedUnits, releasedUnits]
  | cons op ops ih =>
    intro ev
    have hstep := applyInvOp_avail ev op
    simp only [runInvOps, List.foldl_cons, reservedUnits, releasedUnits]
    have := ih (applyInvOp ev op)
    simp only [runInvOps] at this
    rw [this, hstep]
    ring

theorem runInvOps_nonneg (ops : List InvOp) : ∀ ev : Option Evento,
    0 ≤ availTotal ev → 0 ≤ availTotal (runInvOps ev ops) := by
  induction ops with
  | nil => intro ev h; simpa [runInvOps] using h
  | cons op ops ih =>
    intro ev h
    simp only [runInvOps, List.foldl_cons]
    exact ih (applyInvOp ev op) (applyInvOp_nonneg ev op h)

/-- Claim C1, counterexample: the release route increments the available units
unconditionally, so a single liberar request on the freshly seeded one-seat
event drives availableUnits to 2, strictly above the initial total of 1. The
claimed upper bound availableUnits ≤ totalUnits is therefore violated by a
reachable state of the store. -/
theorem liberar_exceeds_initial_total_cex :
    availTotal (runInvOps (some evento4) [InvOp.liberar 1]) = 2 ∧
      evento4.asientosDisponibles = 1 ∧ ¬ ((2 : Int) ≤ 1) := by
  decide

/-- Claim C1, amended: under any sequence of reserve and release requests the
available units never go negative (a reserve is guarded by the 409
insufficient-seats check), and the count satisfies the accounting identity
final = initial - reserved + released; consequently the upper bound
availableUnits ≤ initial total holds exactly for those traces in which the
cumulative successfully released units do not exceed the cumulative
successfully reserved units (the release route itself enforces no bound). -/
theorem inventario_net_invariant (e : Evento) (ops : List InvOp)
    (h0 : 0 ≤ e.asientosDisponibles) :
    0 ≤ availTotal (runInvOps (some e) ops) ∧
      availTotal (runInvOps (some e) ops) =
        e.asientosDisponibles - reservedUnits (some e) ops + releasedUnits (some e) ops ∧
      (releasedUnits (some e) ops ≤ reservedUnits (some e) ops →
        availTotal (runInvOps (some e) ops) ≤ e.asientosDisponibles) := by
  have hs : availTotal (some e) = e.asientosDisponibles := rfl
  refine ⟨runInvOps_nonneg ops (some e) h0, ?_, ?_⟩
  · rw [runInvOps_avail ops (some e), hs]
  · intro hle
    have hid := runInvOps_avail ops (some e)
    rw [hid, hs]
    omega

/-- Witness for C1 amended: a concrete trace on the one-seat event, one
successful reserve followed by one matching release. -/
theorem inventario_net_invariant_witness :
    0 ≤ availTotal (runInvOps (some evento4) [InvOp.reservar 1, InvOp.liberar 1]) ∧
      availTotal (runInvOps (some evento4) [InvOp.reservar 1, InvOp.liberar 1]) =
        evento4.asientosDisponibles -
          reservedUnits (some evento4) [InvOp.reservar 1, InvOp.liberar 1] +
          releasedUnits (some evento4) [InvOp.reservar 1, InvOp.liberar 1] ∧
      (releasedUnits (some evento4) [InvOp.reservar 1, InvOp.liberar 1] ≤
          reservedUnits (some evento4) [InvOp.reservar 1, InvOp.liberar 1] →
        availTotal (runInvOps (some evento4) [InvOp.reservar 1, InvOp.liberar 1]) ≤
          evento4.asientosDisponibles) :=
  inventario_net_invariant evento4 [InvOp.reservar 1, InvOp.liberar 1] (by decide)

/-- Claim C2, counterexample: the compensation (liberar) is a plain increment,
so invoking it twice with the same arguments does not leave the same final
availableUnits as invoking it once: after reserving the single seat of the
one-seat event, one release restores the count to 1 but a second identical
release raises it to 2. -/
theorem liberar_twice_not_idempotent_cex :
    availTotal (runInvOps (some evento4) [InvOp.reservar 1, InvOp.liberar 1]) = 1 ∧
      availTotal (runInvOps (some evento4)
        [InvOp.reservar 1, InvOp.liberar 1, InvOp.liberar 1]) = 2 ∧
      ((2 : Int) ≠ 1) := by
  decide

/-- Claim C2, amended: when the payment step fails after the inventory
decrement, a single invocation of the compensation restores availableUnits to
its exact pre-decrement value (a reserve of n units followed by a release of
the same n units is the identity on the count); the compensation is not
idempotent, so this holds only for exactly one invocation. -/
theorem compensation_restores_exact (e : Evento) (n : Int)
    (h1 : 0 < n) (h2 : n ≤ e.asientosDisponibles) :
    availTotal (runInvOps (some e) [InvOp.reservar n, InvOp.liberar n]) =
      e.asientosDisponibles := by
  have hq : ¬ n ≤ 0 := by omega
  have hlt : ¬ e.asientosDisponibles < n := by omega
  simp only [runInvOps, List.foldl_cons, List.foldl_nil, applyInvOp,
    reservarHandler, liberarHandler, hq, hlt, if_false, availTotal]
  omega

/-- Witness for C2 amended: reserving and then releasing the single seat of
the one-seat event restores the count to 1. -/
theorem compensation_restores_exact_witness :
    availTotal (runInvOps (some evento4) [InvOp.reservar 1, InvOp.liberar 1]) =
      evento4.asientosDisponibles :=
  compensation_restores_exact evento4 1 (by decide) (by decide)

/-! ## retryWithBackoff (shared/resilience-patterns.js, lines 36-64)

The loop runs attempts 0 .. maxRetries. On an error the error is remembered;
when attempts remain the loop sleeps min(initialDelay * factor ^ attempt,
maxDelay) and tries again, with no classification of the error and no jitter.
The embedding takes the outcome of each attempt as a function of the attempt
index and returns the final result together with the list of slept delays. -/

structure RetryOptions where
  maxRetries : Nat
  initialDelay : Nat
  maxDelay : Nat
  factor : Nat
deriving Repr, DecidableEq

/-- Defaults of retryWithBackoff: maxRetries 3, initialDelay 1000 ms,
maxDelay 10000 ms, factor 2. -/
def defaultRetryOptions : RetryOptions :=
  { maxRetries := 3, initialDelay := 1000, maxDelay := 10000, factor := 2 }

inductive AttemptOutcome (α ε : Type)
  | ok (a : α)
  | err (e : ε)
deriving Repr, DecidableEq

instance instDecEqExcept {ε α : Type} [DecidableEq ε] [DecidableEq α] :
    DecidableEq (Except ε α)
  | Except.error a, Except.error b =>
    if h : a = b then isTrue (by rw [h])
    else isFalse (fun hh => h (by cases hh; rfl))
  | Except.error _, Except.ok _ => isFalse (fun hh => Except.noConfusion hh)
  | Except.ok _, Except.error _ => isFalse (fun hh => Except.noConfusion hh)
  | Except.ok a, Except.ok b =>
    if h : a = b then isTrue (by rw [h])
    else isFalse (fun hh => h (by cases hh; rfl))

/-- Delay computed by the source before the next attempt, when the current
0-based attempt index failed: min(initialDelay * factor ^ attempt, maxDelay). -/
def backoffDelay (o : RetryOptions) (attempt : Nat) : Nat :=
  min (o.initialDelay * o.factor ^ attempt) o.maxDelay

/-- Loop body of retryWithBackoff: attempt is the 0-based index of the current
attempt and the second argument the number of retries still allowed after it.
Returns the result and the list of delays slept. On the last allowed attempt a
failure surfaces the last error; otherwise the loop sleeps the backoff delay
and continues. -/
def retryGo (o : RetryOptions) (f : Nat → AttemptOutcome α ε) :
    Nat → Nat → Except ε α × List Nat
  | attempt, 0 =>
    match f attempt with
    | AttemptOutcome.ok a => (Except.ok a, [])
    | AttemptOutcome.err e => (Except.error e, [])
  | attempt, r + 1 =>
    match f attempt with
    | AttemptOutcome.ok a => (Except.ok a, [])
    | AttemptOutcome.err _ =>
      let rest := retryGo o f (attempt + 1) r
      (rest.1, backoffDelay o attempt :: rest.2)

/-- retryWithBackoff: run attempt 0 with maxRetries retries remaining. -/
def retryWithBackoff (o : RetryOptions) (f : Nat → AttemptOutcome α ε) :
    Except ε α × List Nat :=
  retryGo o f 0 o.maxRetries

/-- Spec-side sleep formula for C6 (refinement comparison): the spec words say
the sleep before the next attempt is min(baseDelay * factor ^ (k - 1),
maxDelay) plus a random jitter drawn from the half-open interval from 0 to
that delay; here k is the 1-based failed attempt and jitter the drawn value. -/
def specRetrySleep (o : RetryOptions) (k : Nat) (jitter : Nat) : Nat :=
  min (o.initialDelay * o.factor ^ (k - 1)) o.maxDelay + jitter

/-- An operation that fails on every attempt. -/
def allFailF : Nat → AttemptOutcome Nat String :=
  fun _ => AttemptOutcome.err "ECONNREFUSED"

/-- An operation whose first attempt is an explicit business rejection and
whose second attempt succeeds. -/
def declinedThenOk : Nat → AttemptOutcome Nat String :=
  fun k => if k = 0 then AttemptOutcome.err "PAYMENT_DECLINED" else AttemptOutcome.ok 42

theorem retryGo_delay_getD (o : RetryOptions) (f : Nat → AttemptOutcome α ε) :
    ∀ (r a k : Nat), k < (retryGo o f a r).2.length →
      (retryGo o f a r).2.getD k 0 = backoffDelay o (a + k) := by
  intro r
  induction r with
  | zero =>
    intro a k h
    cases hfa : f a <;> simp [retryGo, hfa] at h
  | succ r ih =>
    intro a k h
    cases hfa : f a with
    | ok v => simp [retryGo, hfa] at h
    | err e =>
      have h2 : (retryGo o f a (r + 1)).2 =
          backoffDelay o a :: (retryGo o f (a + 1) r).2 := by
        simp [retryGo, hfa]
      rw [h2] at h ⊢
      cases k with
      | zero => simp
      | succ k =>
        simp only [List.getD_cons_succ]
        have hlen : k < (retryGo o f (a + 1) r).2.length := by
          simpa using Nat.lt_of_succ_lt_succ h
        have h3 := ih (a + 1) k hlen
        rw [h3]
        congr 1
        omega

/-- Claim C6, counterexample: the code sleeps exactly the backoff minimum and
adds no jitter. With the default options and an operation that always fails,
every execution sleeps exactly 1000 ms before attempt 2, whereas the claimed
random jitter term drawn from the interval from 0 to the delay also admits a
sleep of 1500 ms (jitter 500 < 1000); the code never sleeps that value. -/
theorem retry_no_jitter_cex :
    (retryWithBackoff defaultRetryOptions allFailF).2 = [1000, 2000, 4000] ∧
      specRetrySleep defaultRetryOptions 1 500 = 1500 ∧
      500 < backoffDelay defaultRetryOptions 0 ∧
      ((1000 : Nat) ≠ 1500) := by
  decide

/-- Claim C6, amended: for every failed attempt k < maxAttempts, the delay
slept before attempt k + 1 is exactly min(baseDelay * factor ^ (k - 1),
maxDelay), with no jitter term; in the 0-based indexing of the embedding, the
k-th slept delay equals min(initialDelay * factor ^ k, maxDelay). -/
theorem retry_delays_formula (o : RetryOptions) (f : Nat → AttemptOutcome α ε)
    (k : Nat) (h : k < (retryWithBackoff o f).2.length) :
    (retryWithBackoff o f).2.getD k 0 =
      min (o.initialDelay * o.factor ^ k) o.maxDelay := by
  have h1 := retryGo_delay_getD o f o.maxRetries 0 k h
  simpa [retryWithBackoff, backoffDelay] using h1

/-- Witness for C6 amended: with the default options and an operation that
always fails, the delay slept after the second failed attempt is
min(1000 * 2 ^ 1, 10000) = 2000 ms. -/
theorem retry_delays_formula_witness :
    (retryWithBackoff defaultRetryOptions allFailF).2.getD 1 0 =
      min (1000 * 2 ^ 1) 10000 :=
  retry_delays_formula defaultRetryOptions allFailF 1 (by decide)

/-- Claim C7, counterexample: the retry wrapper has no notion of a
non-retryable error. An operation whose first attempt fails with the explicit
business rejection PAYMENT_DECLINED is retried after the 1000 ms backoff and
the second attempt runs (and here succeeds); the wrapper does not abort with
the rejection after the first attempt. -/
theorem retry_business_error_retried_cex :
    retryWithBackoff defaultRetryOptions declinedThenOk = (Except.ok 42, [1000]) ∧
      ((Except.ok 42 : Except String Nat) ≠ Except.error "PAYMENT_DECLINED") := by
  decide

/-- Claim C7, amended: the retry wrapper classifies no error as non-retryable.
Whatever error the first attempt fails with, including a validation failure or
an explicit business rejection, the wrapper sleeps the backoff delay and
continues with the next attempt whenever retries remain. -/
theorem retry_continues_after_any_error (o : RetryOptions)
    (f : Nat → AttemptOutcome α ε) (e : ε) (m : Nat)
    (h0 : f 0 = AttemptOutcome.err e) (hm : o.maxRetries = m + 1) :
    retryWithBackoff o f =
      ((retryGo o f 1 m).1, backoffDelay o 0 :: (retryGo o f 1 m).2) := by
  simp only [retryWithBackoff, hm, retryGo, h0]

/-- Witness for C7 amended: the PAYMENT_DECLINED first attempt is followed by
a second attempt after the 1000 ms backoff. -/
theorem retry_continues_after_any_error_witness :
    retryWithBackoff defaultRetryOptions declinedThenOk =
      ((retryGo defaultRetryOptions declinedThenOk 1 2).1,
        backoffDelay defaultRetryOptions 0 ::
          (retryGo defaultRetryOptions declinedThenOk 1 2).2) :=
  retry_continues_after_any_error defaultRetryOptions declinedThenOk
    "PAYMENT_DECLINED" 2 (by decide) (by decide)

/-! ## Bulkhead (shared/resilience-patterns.js, lines 66-105)

The Bulkhead keeps maxConcurrent, currentConcurrent and an unbounded array
queue. execute enqueues the task whenever currentConcurrent has reached
maxConcurrent and otherwise runs it at once (incrementing the counter); when a
running task settles, the counter is decremented and one queued task is
started if the counter is below the bound. Events are the points where the
single-threaded runtime lets the Bulkhead state change. -/

structure Bulkhead where
  maxConcurrent : Nat
  currentConcurrent : Nat
  queue : List Nat
deriving Repr, DecidableEq

def Bulkhead.new (maxConcurrent : Nat) : Bulkhead :=
  { maxConcurrent := maxConcurrent, currentConcurrent := 0, queue := [] }

inductive SubmitOutcome
  | ran
  | queued
deriving Repr, DecidableEq

/-- Bulkhead.execute: when the concurrency bound is reached the task is pushed
onto the queue (the returned promise stays pending: no rejection, no bound on
the queue); otherwise it starts at once. -/
def Bulkhead.submit (b : Bulkhead) (taskId : Nat) : Bulkhead × SubmitOutcome :=
  if b.maxConcurrent ≤ b.currentConcurrent then
    ({ b with queue := b.queue ++ [taskId] }, SubmitOutcome.queued)
  else
    ({ b with currentConcurrent := b.currentConcurrent + 1 }, SubmitOutcome.ran)

/-- Bulkhead processQueue: start the first queued task if one exists and the
counter is below the bound. -/
def Bulkhead.processQueue (b : Bulkhead) : Bulkhead :=
  match b.queue with
  | [] => b
  | _ :: rest =>
    if b.currentConcurrent < b.maxConcurrent then
      { b with queue := rest, currentConcurrent := b.currentConcurrent + 1 }
    else b

/-- Settling of a running task (the finally block of Bulkhead execution):
decrement the counter, then process the queue. A complete event with no
running task cannot occur and is modelled as a no-op. -/
def Bulkhead.complete (b : Bulkhead) : Bulkhead :=
  if b.currentConcurrent = 0 then b
  else Bulkhead.processQueue { b with currentConcurrent := b.currentConcurrent - 1 }

inductive BhEvent
  | submit (taskId : Nat)
  | complete
deriving Repr, DecidableEq

def bhStep (b : Bulkhead) : BhEvent → Bulkhead
  | BhEvent.submit taskId => (b.submit taskId).1
  | BhEvent.complete => b.complete

def bhRun (b : Bulkhead) (evs : List BhEvent) : Bulkhead :=
  evs.foldl bhStep b

/-- Submitting a batch of tasks in order, collecting each submission outcome. -/
def runSubmits (b : Bulkhead) : List Nat → Bulkhead × List SubmitOutcome
  | [] => (b, [])
  | taskId :: rest =>
    let step := b.submit taskId
    let next := runSubmits step.1 rest
    (next.1, step.2 :: next.2)

theorem bhStep_max (b : Bulkhead) (ev : BhEvent) :
    (bhStep b ev).maxConcurrent = b.maxConcurrent := by
  cases ev with
  | submit taskId =>
    simp only [bhStep, Bulkhead.submit]
    split <;> rfl
  | complete =>
    simp only [bhStep, Bulkhead.complete]
    split
    · rfl
    · simp only [Bulkhead.processQueue]
      split
      · rfl
      · split <;> rfl

theorem bhStep_bound (b : Bulkhead) (ev : BhEvent)
    (h : b.currentConcurrent ≤ b.maxConcurrent) :
    (bhStep b ev).currentConcurrent ≤ (bhStep b ev).maxConcurrent := by
  cases ev with
  | submit taskId =>
    simp only [bhStep, Bulkhead.submit]
    split
    · exact h
    · rename_i hlt
      simp only []
      omega
  | complete =>
    simp only [bhStep, Bulkhead.complete]
    split
    · exact h
    · rename_i hne
      simp only [Bulkhead.processQueue]
      split
      · simp only []
        omega
      · split
        · rename_i hlt
          simp only [] at hlt ⊢
          omega
        · simp only []
          omega

theorem bhRun_bound (evs : List BhEvent) : ∀ b : Bulkhead,
    b.currentConcurrent ≤ b.maxConcurrent →
      (bhRun b evs).currentConcurrent ≤ (bhRun b evs).maxConcurrent := by
  induction evs with
  | nil => intro b h; simpa [bhRun] using h
  | cons ev evs ih =>
    intro b h
    simp only [bhRun, List.foldl_cons]
    exact ih (bhStep b ev) (bhStep_bound b ev h)

/-- Claim C3, counterexample: the Bulkhead of the source has no queue bound
and never rejects a submission. Under the Scenario D configuration
(maxConcurrent 10, putative maxQueueLength 10), submitting 21 tasks with none
completing runs 10, then enqueues all remaining 11: the 21st submission is
enqueued rather than failed, and the queue length 11 exceeds the putative
bound 10. -/
theorem bulkhead_queue_unbounded_cex :
    (runSubmits (Bulkhead.new 10) (List.range 21)).1.queue.length = 11 ∧
      (runSubmits (Bulkhead.new 10) (List.range 21)).2.getLast? =
        some SubmitOutcome.queued ∧
      ¬ (11 ≤ 10) := by
  decide

/-- Claim C3, amended: a task submitted while currentConcurrent has reached
maxConcurrent is enqueued unconditionally; the submission never fails and the
queue grows by one entry regardless of its current length (the source has no
maxQueueLength and no AdmissionRejected path). -/
theorem bulkhead_enqueues_when_saturated (b : Bulkhead) (taskId : Nat)
    (h : b.maxConcurrent ≤ b.currentConcurrent) :
    (b.submit taskId).2 = SubmitOutcome.queued ∧
      (b.submit taskId).1.queue.length = b.queue.length + 1 := by
  simp [Bulkhead.submit, h]

/-- Witness for C3 amended: a saturated one-slot Bulkhead with an already
long queue still enqueues the next submission. -/
theorem bulkhead_enqueues_when_saturated_witness :
    ((Bulkhead.mk 1 1 [2, 3, 4]).submit 5).2 = SubmitOutcome.queued ∧
      ((Bulkhead.mk 1 1 [2, 3, 4]).submit 5).1.queue.length = [2, 3, 4].length + 1 :=
  bulkhead_enqueues_when_saturated (Bulkhead.mk 1 1 [2, 3, 4]) 5 (by decide)

theorem bhRun_max (evs : List BhEvent) : ∀ b : Bulkhead,
    (bhRun b evs).maxConcurrent = b.maxConcurrent := by
  induction evs with
  | nil => intro b; rfl
  | cons ev l ih =>
    intro b
    have h1 := ih (bhStep b ev)
    simp only [bhRun, List.foldl_cons]
    simp only [bhRun] at h1
    rw [h1, bhStep_max]

/-- Claim C8: for every sequence of submissions and completions starting from
a fresh Bulkhead, currentConcurrent never exceeds maxConcurrent. -/
theorem bulkhead_concurrency_bound (m : Nat) (evs : List BhEvent) :
    (bhRun (Bulkhead.new m) evs).currentConcurrent ≤ m := by
  have h := bhRun_bound evs (Bulkhead.new m) (by simp [Bulkhead.new])
  rw [bhRun_max evs (Bulkhead.new m)] at h
  exact h

/-! ## Payment client deadline (services/reservas/index.js, lines 101-137)

pagosClient is created with timeout 25000 ms at both the axios layer and the
circuit breaker; the payment service simulates a worst-case latency of
LATENCIA_MS (default 20000 ms). An axios request errs with a timeout only
when the dependency takes strictly longer than the configured timeout. -/

/-- Timeout of the axios client wrapping the payment service. -/
def pagosClientTimeoutMs : Nat := 25000

/-- Timeout of the circuit breaker wrapping the payment client. -/
def pagosBreakerTimeoutMs : Nat := 25000

/-- Default simulated latency of the payment service (LATENCIA_MS). -/
def latenciaPagosMs : Nat := 20000

/-- Deadline the spec and the repository docs state for the payment call. -/
def specPaymentDeadlineMs : Nat := 5000

/-- An axios request times out exactly when the dependency latency exceeds
the configured timeout. -/
def axiosTimesOut (latencyMs timeoutMs : Nat) : Bool :=
  timeoutMs < latencyMs

/-- Claim C4 (evidence of the divergence): the payment call is configured
with a 25000 ms timeout, which is longer, not materially shorter, than the
dependency worst-case latency of 20000 ms; at that latency the call does not
time out, so the saga never reaches the payment-timeout cancellation in the
20 s scenario, while the 5000 ms deadline stated by the docs would have timed
it out. -/
theorem pagos_deadline_not_enforced :
    pagosClientTimeoutMs = 25000 ∧ pagosBreakerTimeoutMs = 25000 ∧
      axiosTimesOut latenciaPagosMs pagosClientTimeoutMs = false ∧
      axiosTimesOut latenciaPagosMs specPaymentDeadlineMs = true ∧
      specPaymentDeadlineMs < latenciaPagosMs ∧
      latenciaPagosMs < pagosClientTimeoutMs := by
  decide

/-! ## Stale-read inventory cache (services/reservas/index.js, lines 52-99)

consultarInventario first tries the live fetch; on success it refreshes the
cache entry for the event and returns fresh data. On failure it consults the
cache: an entry younger than INVENTARIO_CACHE_TTL is returned marked
fromCache, anything else throws. The live outcome, the cache entry and the
clock are inputs of the embedding. -/

structure InventarioData where
  eventoId : String
  nombre : String
  asientosDisponibles : Int
  precio : Int
  disponible : Bool
deriving Repr, DecidableEq

structure CacheEntry where
  data : InventarioData
  timestamp : Nat
deriving Repr, DecidableEq

/-- INVENTARIO_CACHE_TTL: 10 minutes in milliseconds. -/
def INVENTARIO_CACHE_TTL : Nat := 10 * 60 * 1000

/-- Result of consultarInventario: fresh live data, cached data marked
fromCache, or the thrown unavailable error. -/
inductive ConsultaResult
  | fresh (d : InventarioData)
  | cached (d : InventarioData)
  | unavailable
deriving Repr, DecidableEq

/-- consultarInventario: live outcome, current cache entry and clock in,
result and updated cache entry out. -/
def consultarInventario (live : Option InventarioData)
    (cache : Option CacheEntry) (now : Nat) : ConsultaResult × Option CacheEntry :=
  match live with
  | some d => (ConsultaResult.fresh d, some { data := d, timestamp := now })
  | none =>
    match cache with
    | some c =>
      if now - c.timestamp < INVENTARIO_CACHE_TTL then
        (ConsultaResult.cached c.data, some c)
      else (ConsultaResult.unavailable, some c)
    | none => (ConsultaResult.unavailable, none)

/-- Claim C5: when the live fetch fails, a cache entry strictly younger than
the TTL is returned marked as coming from the cache (not fresh); an entry at
least TTL old, or a missing entry, makes the read fail instead of returning
data. -/
theorem stale_cache_fallback (c : CacheEntry) (now : Nat) :
    (now - c.timestamp < INVENTARIO_CACHE_TTL →
      (consultarInventario none (some c) now).1 = ConsultaResult.cached c.data) ∧
    (INVENTARIO_CACHE_TTL ≤ now - c.timestamp →
      (consultarInventario none (some c) now).1 = ConsultaResult.unavailable) ∧
    (consultarInventario none none now).1 = ConsultaResult.unavailable := by
  refine ⟨?_, ?_, rfl⟩
  · intro h
    simp [consultarInventario, h]
  · intro h
    simp [consultarInventario, Nat.not_lt.mpr h]

/-- The first seeded event as returned by GET /inventario/:eventoId. -/
def datosEvento1 : InventarioData :=
  { eventoId := "evento-1", nombre := "Rock Concert", asientosDisponibles := 100,
    precio := 50, disponible := true }

def entradaEvento1 : CacheEntry := { data := datosEvento1, timestamp := 0 }

/-- Witness for C5: a 1000 ms old entry is served marked not fresh when the
live fetch fails. -/
theorem stale_cache_fallback_witness :
    (consultarInventario none (some entradaEvento1) 1000).1 =
      ConsultaResult.cached datosEvento1 :=
  (stale_cache_fallback entradaEvento1 1000).1 (by decide)

/-! ## Reservation saga, POST /reservas (services/reservas/index.js, 189-374)

The handler acquires the distributed lock when the redlock client exists
(lock stays null otherwise), checks availability, reserves seats in the
inventory, charges the payment, stores the confirmed record and notifies. The
outcome of each external call is an input of the embedding. Error objects
carry the message the handler inspects with String.includes; the branch that
matters to C9 is the unguarded lock.release() in the reserve-failure catch,
which on a null lock throws a TypeError whose message is
Cannot read properties of null (reading release) - the quotes Node puts
around the property name are elided, they contain no letters. -/

def isPrefixChars : List Char → List Char → Bool
  | [], _ => true
  | _ :: _, [] => false
  | a :: as, b :: bs => a == b && isPrefixChars as bs

def charsContains : List Char → List Char → Bool
  | [], sub => sub.isEmpty
  | x :: xs, sub => isPrefixChars sub (x :: xs) || charsContains xs sub

/-- JavaScript String.prototype.includes on the embedded strings. -/
def strIncludes (s sub : String) : Bool :=
  charsContains s.toList sub.toList

/-- Errors the handler can observe: an axios error carrying a response
status, a transport-level error with no response, or the TypeError raised by
dereferencing the null lock. -/
inductive JsError
  | http (status : Nat) (msg : String)
  | net (msg : String)
  | typeErrorNullRelease
deriving Repr, DecidableEq

def JsError.message : JsError → String
  | JsError.http _ m => m
  | JsError.net m => m
  | JsError.typeErrorNullRelease => "Cannot read properties of null (reading release)"

/-- Whether an axios error has a response with status 409 (the check
error.response && error.response.status === 409). -/
def isHttp409 : JsError → Bool
  | JsError.http s _ => s == 409
  | _ => false

structure PagoData where
  transaccionId : String
deriving Repr, DecidableEq

structure ReservaRequest where
  eventoId : String
  asientos : Int
  usuario : String
deriving Repr, DecidableEq

/-- A stored reservation record (the fields the claims are about). -/
structure Reserva where
  id : String
  eventoId : String
  asientos : Int
  usuario : String
  transaccionId : String
  estado : String
deriving Repr, DecidableEq

/-- HTTP status of the response together with the record the handler stores
into the reservas map (none when no record is created). -/
structure HandlerResult where
  status : Nat
  record : Option Reserva
deriving Repr, DecidableEq

/-- Outcomes of the external calls one POST /reservas execution performs. -/
structure SagaEnv where
  redlockAvailable : Bool
  lockAcquire : Except JsError Unit
  inventario : ConsultaResult
  reservarCall : Except JsError Unit
  pago : Except JsError PagoData
  liberarCall : Except JsError Unit
  notificar : Except JsError Unit
deriving Repr, DecidableEq

/-- Outer catch of POST /reservas: release the lock when the variable is
non-null, then answer 409 when the error message contains lock and 500
otherwise. -/
def outerCatch (e : JsError) : HandlerResult :=
  if strIncludes e.message "lock" then { status := 409, record := none }
  else { status := 500, record := none }

/-- Saga steps after a successful availability read. The unguarded
lock.release() of the reserve-failure catch throws on a null lock and lands
in the outer catch; with a held lock the same catch answers 409 for a 409
reserve response and 500 otherwise. A payment failure triggers the
compensation call (whose own failure only logs) and answers 408 on a
TIMEOUT_PAGO message, 402 otherwise. On success the confirmed record is
created. -/
def sagaAfterInventario (env : SagaEnv) (req : ReservaRequest) (id : String)
    (lockHeld : Bool) (d : InventarioData) : HandlerResult :=
  if d.disponible = false ∨ d.asientosDisponibles < req.asientos then
    { status := 409, record := none }
  else
    match env.reservarCall with
    | Except.error e =>
      if lockHeld then
        if isHttp409 e then { status := 409, record := none }
        else { status := 500, record := none }
      else outerCatch JsError.typeErrorNullRelease
    | Except.ok _ =>
      match env.pago with
      | Except.error e =>
        if strIncludes (JsError.message e) "TIMEOUT_PAGO" then
          { status := 408, record := none }
        else { status := 402, record := none }
      | Except.ok p =>
        { status := 201,
          record := some { id := id, eventoId := req.eventoId, asientos := req.asientos,
                           usuario := req.usuario, transaccionId := p.transaccionId,
                           estado := "confirmada" } }

/-- Saga body once the lock phase is done: an availability-read failure
answers 503; fresh and cached data continue identically (only logging
differs). -/
def sagaBody (env : SagaEnv) (req : ReservaRequest) (id : String)
    (lockHeld : Bool) : HandlerResult :=
  match env.inventario with
  | ConsultaResult.unavailable => { status := 503, record := none }
  | ConsultaResult.fresh d => sagaAfterInventario env req id lockHeld d
  | ConsultaResult.cached d => sagaAfterInventario env req id lockHeld d

/-- POST /reservas: when the redlock client exists the lock is acquired (an
acquire failure propagates to the outer catch with the lock variable still
null); without the client the saga proceeds with a null lock. -/
def postReservas (env : SagaEnv) (req : ReservaRequest) (id : String) : HandlerResult :=
  if env.redlockAvailable then
    match env.lockAcquire with
    | Except.error e => outerCatch e
    | Except.ok _ => sagaBody env req id true
  else sagaBody env req id false

theorem nullRelease_msg_no_lock :
    strIncludes (JsError.message JsError.typeErrorNullRelease) "lock" = false := by
  decide

/-- Claim C9: with the lock client unavailable (null lock) and the inventory
reserve step failing with a 409, the unguarded lock.release() throws a
TypeError whose message does not contain lock, so the outer catch answers
500; the same failure with a held lock produces the dedicated 409 response. -/
theorem null_lock_deref_returns_500 (env : SagaEnv) (req : ReservaRequest)
    (id : String) (d : InventarioData) (m : String)
    (hred : env.redlockAvailable = false)
    (hinv : env.inventario = ConsultaResult.fresh d)
    (hdisp : d.disponible = true)
    (hseats : ¬ d.asientosDisponibles < req.asientos)
    (hres : env.reservarCall = Except.error (JsError.http 409 m)) :
    (postReservas env req id).status = 500 ∧
      (postReservas { env with redlockAvailable := true, lockAcquire := Except.ok () } req id).status = 409 := by
  have hcond : ¬ (d.disponible = false ∨ d.asientosDisponibles < req.asientos) := by
    rw [hdisp]
    simp [hseats]
  constructor
  · simp only [postReservas, hred, Bool.false_eq_true, if_false, sagaBody, hinv]
    simp only [sagaAfterInventario, hres, if_neg hcond]
    simp [outerCatch, nullRelease_msg_no_lock]
  · simp only [postReservas, if_true, sagaBody, hinv]
    simp only [sagaAfterInventario, hres, if_neg hcond]
    simp [isHttp409]

/-- The environment of the C9 scenario: no redlock client, availability read
fresh with plenty of seats, and a 409 from the reserve call. -/
def envNullLock : SagaEnv :=
  { redlockAvailable := false, lockAcquire := Except.ok (),
    inventario := ConsultaResult.fresh datosEvento1,
    reservarCall := Except.error (JsError.http 409 "Request failed with status code 409"),
    pago := Except.ok { transaccionId := "tx-1" },
    liberarCall := Except.ok (), notificar := Except.ok () }

def reqDemo : ReservaRequest :=
  { eventoId := "evento-1", asientos := 2, usuario := "usuario1" }

/-- Witness for C9 at the concrete scenario environment. -/
theorem null_lock_deref_returns_500_witness :
    (postReservas envNullLock reqDemo "res-2").status = 500 ∧
      (postReservas { envNullLock with redlockAvailable := true, lockAcquire := Except.ok () } reqDemo "res-2").status = 409 :=
  null_lock_deref_returns_500 envNullLock reqDemo "res-2" datosEvento1
    "Request failed with status code 409" rfl rfl rfl (by decide) rfl

/-! ## Reservation records store (services/reservas/index.js, 154-415)

The reservas map receives a record only on the success path of POST
/reservas, always in estado confirmada; DELETE /reservas/:id answers 404 on a
missing id, 409 on an already cancelled record, leaves the record unchanged
when the refund or the release call fails (500), and otherwise sets estado to
cancelada. -/

def findReserva (id : String) : List (String × Reserva) → Option Reserva
  | [] => none
  | (k, r) :: rest => if k = id then some r else findReserva id rest

def setReserva (id : String) (r : Reserva) :
    List (String × Reserva) → List (String × Reserva)
  | [] => [(id, r)]
  | (k, r0) :: rest =>
    if k = id then (id, r) :: rest else (k, r0) :: setReserva id r rest

/-- One request against the reservations service that can change the map. -/
inductive SvcOp
  | post (env : SagaEnv) (req : ReservaRequest) (id : String)
  | cancel (id : String) (refundOk : Bool) (liberarOk : Bool)
deriving DecidableEq

def svcStep (rs : List (String × Reserva)) : SvcOp → List (String × Reserva)
  | SvcOp.post env req id =>
    match (postReservas env req id).record with
    | some r => setReserva id r rs
    | none => rs
  | SvcOp.cancel id refundOk liberarOk =>
    match findReserva id rs with
    | none => rs
    | some r =>
      if r.estado = "cancelada" then rs
      else if refundOk && liberarOk then
        setReserva id { r with estado := "cancelada" } rs
      else rs

def svcRun (rs : List (String × Reserva)) (ops : List SvcOp) :
    List (String × Reserva) :=
  ops.foldl svcStep rs

def goodEstado (r : Reserva) : Prop :=
  r.estado = "confirmada" ∨ r.estado = "cancelada"

theorem outerCatch_record (e : JsError) : (outerCatch e).record = none := by
  unfold outerCatch
  split <;> rfl

theorem sagaAfterInventario_record (env : SagaEnv) (req : ReservaRequest)
    (id : String) (lockHeld : Bool) (d : InventarioData) (r : Reserva)
    (h : (sagaAfterInventario env req id lockHeld d).record = some r) :
    r.estado = "confirmada" ∧ ∃ p, env.pago = Except.ok p := by
  unfold sagaAfterInventario at h
  split at h
  · simp at h
  · split at h
    · split at h
      · split at h <;> simp at h
      · rw [outerCatch_record] at h
        simp at h
    · split at h
      · split at h <;> simp at h
      · rename_i p hp
        simp only [Option.some_inj] at h
        subst h
        exact ⟨rfl, ⟨p, hp⟩⟩

theorem postReservas_record (env : SagaEnv) (req : ReservaRequest) (id : String)
    (r : Reserva) (h : (postReservas env req id).record = some r) :
    r.estado = "confirmada" ∧ ∃ p, env.pago = Except.ok p := by
  unfold postReservas at h
  split at h
  · split at h
    · rw [outerCatch_record] at h
      simp at h
    · unfold sagaBody at h
      split at h
      · simp at h
      · exact sagaAfterInventario_record env req id true _ r h
      · exact sagaAfterInventario_record env req id true _ r h
  · unfold sagaBody at h
    split at h
    · simp at h
    · exact sagaAfterInventario_record env req id false _ r h
    · exact sagaAfterInventario_record env req id false _ r h

theorem setReserva_good (id : String) (r : Reserva) (hr : goodEstado r) :
    ∀ rs : List (String × Reserva), (∀ pr ∈ rs, goodEstado pr.2) →
      ∀ pr ∈ setReserva id r rs, goodEstado pr.2 := by
  intro rs
  induction rs with
  | nil =>
    intro _ pr hpr
    simp only [setReserva, List.mem_singleton] at hpr
    rw [hpr]
    exact hr
  | cons hd tl ih =>
    intro hrs pr hpr
    obtain ⟨k, r0⟩ := hd
    simp only [setReserva] at hpr
    split at hpr
    · rcases List.mem_cons.mp hpr with h1 | h1
      · rw [h1]
        exact hr
      · exact hrs pr (List.mem_cons_of_mem _ h1)
    · rcases List.mem_cons.mp hpr with h1 | h1
      · rw [h1]
        exact hrs (k, r0) (List.mem_cons_self _ _)
      · exact ih (fun q hq => hrs q (List.mem_cons_of_mem _ hq)) pr h1

theorem svcStep_good (rs : List (String × Reserva)) (op : SvcOp)
    (hrs : ∀ pr ∈ rs, goodEstado pr.2) :
    ∀ pr ∈ svcStep rs op, goodEstado pr.2 := by
  cases op with
  | post env req id =>
    simp only [svcStep]
    cases hrec : (postReservas env req id).record with
    | none => exact hrs
    | some r =>
      have hr : goodEstado r :=
        Or.inl (postReservas_record env req id r hrec).1
      exact setReserva_good id r hr rs hrs
  | cancel id refundOk liberarOk =>
    simp only [svcStep]
    cases hfind : findReserva id rs with
    | none => exact hrs
    | some r =>
      dsimp only
      by_cases hc : r.estado = "cancelada"
      · rw [if_pos hc]
        exact hrs
      · rw [if_neg hc]
        by_cases hb : (refundOk && liberarOk) = true
        · rw [if_pos hb]
          exact setReserva_good id { r with estado := "cancelada" } (Or.inr rfl) rs hrs
        · rw [if_neg hb]
          exact hrs

theorem svcRun_good (ops : List SvcOp) : ∀ rs : List (String × Reserva),
    (∀ pr ∈ rs, goodEstado pr.2) → ∀ pr ∈ svcRun rs ops, goodEstado pr.2 := by
  induction ops with
  | nil => intro rs hrs; simpa [svcRun] using hrs
  | cons op ops ih =>
    intro rs hrs
    simp only [svcRun, List.foldl_cons]
    exact ih (svcStep rs op) (svcStep_good rs op hrs)

/-- Claim C10: starting from the empty store, every record ever held by the
reservas map has estado confirmada or cancelada under any sequence of
reservation and cancellation requests (so GET /reservas only returns such
records), and a POST /reservas execution stores a record only when its
payment call succeeded, always in estado confirmada. -/
theorem reservas_only_confirmada_or_cancelada (ops : List SvcOp) (env : SagaEnv)
    (req : ReservaRequest) (id : String) (r : Reserva) :
    (∀ pr ∈ svcRun [] ops, pr.2.estado = "confirmada" ∨ pr.2.estado = "cancelada") ∧
      ((postReservas env req id).record = some r →
        r.estado = "confirmada" ∧ ∃ p, env.pago = Except.ok p) := by
  constructor
  · intro pr hpr
    exact svcRun_good ops [] (by intro q hq; cases hq) pr hpr
  · intro h
    exact postReservas_record env req id r h

/-- The all-success environment of one reservation. -/
def envOk : SagaEnv :=
  { redlockAvailable := true, lockAcquire := Except.ok (),
    inventario := ConsultaResult.fresh datosEvento1,
    reservarCall := Except.ok (), pago := Except.ok { transaccionId := "tx-1" },
    liberarCall := Except.ok (), notificar := Except.ok () }

/-- The record the all-success environment stores. -/
def recDemo : Reserva :=
  { id := "res-1", eventoId := "evento-1", asientos := 2, usuario := "usuario1",
    transaccionId := "tx-1", estado := "confirmada" }

def opsDemo : List SvcOp := [SvcOp.post envOk reqDemo "res-1"]

/-- Witness for C10: the record stored by one successful reservation. -/
theorem reservas_only_confirmada_or_cancelada_witness :
    (recDemo.estado = "confirmada" ∨ recDemo.estado = "cancelada") ∧
      (recDemo.estado = "confirmada" ∧ ∃ p, envOk.pago = Except.ok p) :=
  ⟨(reservas_only_confirmada_or_cancelada opsDemo envOk reqDemo "res-1" recDemo).1
      ("res-1", recDemo) (by decide),
    (reservas_only_confirmada_or_cancelada opsDemo envOk reqDemo "res-1" recDemo).2
      (by decide)⟩

end SistemaReservas
